import Mathlib

/-!
Shallow embedding of the conversation-state and request-assembly core of
`api_client.py` (class `DeepSeekClient`): the message history, its retention
policy, the system-prompt handling, and the `chat` / `test_connection`
operations modelled over an explicit transport-outcome type.
-/

set_option autoImplicit false

namespace DeepSeek

/-- Embeds the `ChatMessage` dataclass: a role string and a content string. -/
structure ChatMessage where
  role : String
  content : String
deriving DecidableEq, Repr

/-- Role test used throughout `api_client.py`: `msg.role == 'system'`. -/
def isSystem (m : ChatMessage) : Bool :=
  m.role == "system"

/-- Count of messages whose role is not `'system'`. -/
def countNonSystem (h : List ChatMessage) : Nat :=
  (h.filter (fun m => !(isSystem m))).length

/-- Embeds the Python slice `l[-k:]` for a natural `k`: for `k = 0` the slice
`l[-0:]` is `l[0:]`, the whole list; for `k > 0` it is the last `k` elements
(all of `l` when `k ≥ l.length`). -/
def sliceLast {α : Type} (k : Nat) (l : List α) : List α :=
  if k = 0 then l else l.drop (l.length - k)

/-- Embeds `DeepSeekClient._trim_history`: split off the system messages,
slice the rest down when it exceeds `maxHistory`, and recombine with the
system messages in front. -/
def trim_history (maxHistory : Nat) (h : List ChatMessage) : List ChatMessage :=
  let systemMessages := h.filter (fun m => isSystem m)
  let otherMessages := h.filter (fun m => !(isSystem m))
  let keptMessages :=
    if otherMessages.length > maxHistory then sliceLast maxHistory otherMessages
    else otherMessages
  systemMessages ++ keptMessages

/-- Embeds `DeepSeekClient.add_user_message`: append `ChatMessage('user', content)`
(the content exactly as given), then trim. -/
def add_user_message (maxHistory : Nat) (h : List ChatMessage) (content : String) :
    List ChatMessage :=
  trim_history maxHistory (h ++ [⟨"user", content⟩])

/-- Embeds `DeepSeekClient.add_assistant_message`: append
`ChatMessage('assistant', content)`, then trim. -/
def add_assistant_message (maxHistory : Nat) (h : List ChatMessage) (content : String) :
    List ChatMessage :=
  trim_history maxHistory (h ++ [⟨"assistant", content⟩])

/-- Embeds Python `str.strip()`: remove whitespace characters from both ends
of the string. -/
def pyStrip (s : String) : String :=
  ⟨((s.data.dropWhile Char.isWhitespace).reverse.dropWhile Char.isWhitespace).reverse⟩

/-- Embeds `DeepSeekClient.set_system_prompt`: drop every existing system
message; when the stripped prompt is non-empty (Python truthiness of
`system_prompt.strip()`), insert `ChatMessage('system', system_prompt.strip())`
at index 0. -/
def set_system_prompt (h : List ChatMessage) (systemPrompt : String) :
    List ChatMessage :=
  let rest := h.filter (fun m => !(isSystem m))
  if pyStrip systemPrompt ≠ "" then ⟨"system", pyStrip systemPrompt⟩ :: rest else rest

/-- Embeds `DeepSeekClient.clear_history`: keep only the system messages. -/
def clear_history (h : List ChatMessage) : List ChatMessage :=
  h.filter (fun m => isSystem m)

/-- Embeds the list comprehension `[msg.to_dict() for msg in conversation_history]`
(the spec's `toRequestMessages`). -/
def toRequestMessages (h : List ChatMessage) : List (String × String) :=
  h.map (fun m => (m.role, m.content))

/-- The message content of an element of the response's `choices` array
(`choice['message']['content']`). -/
structure ChoiceMessage where
  content : String
deriving DecidableEq, Repr

/-- The parsed JSON body of a response, restricted to the fields
`DeepSeekClient` reads: `choices` (absent ↦ `none`, present ↦ `some` list),
the `usage` counters (display only), and `error.message`/`error.type` read by
`_handle_api_error` (display only). -/
structure ResponseData where
  choices : Option (List ChoiceMessage)
  usage : List (String × Nat)
  errorMessage : Option String
  errorType : Option String
deriving DecidableEq, Repr

/-- Result of `response.json()`: `invalid` when it raises `JSONDecodeError`
(carrying the raw text), `valid` when it parses. -/
inductive Body where
  | invalid (raw : String)
  | valid (data : ResponseData)
deriving DecidableEq, Repr

/-- Outcome of the `requests.post` call as the environment resolves it:
the three caught transport exception classes, or an HTTP response with a
status code and a body. -/
inductive HttpOutcome where
  | timeout
  | connectionError
  | requestException (detail : String)
  | response (status : Nat) (body : Body)
deriving DecidableEq, Repr

/-- What `DeepSeekClient.chat` hands back: the `Optional[str]` return value
and the `conversation_history` after the call. -/
structure ChatResult where
  reply : Option String
  history : List ChatMessage
deriving DecidableEq, Repr

/-- Embeds `DeepSeekClient.chat` as a function of the store, the user input
and the transport outcome: append the user turn, then on status 200 with a
non-empty `choices` array append the first choice's content as an assistant
turn and return it; every other path returns `None` (the exception handlers
and the error branches all just print and return `None`). -/
def chat (maxHistory : Nat) (h : List ChatMessage) (userInput : String)
    (outcome : HttpOutcome) : ChatResult :=
  let h1 := add_user_message maxHistory h userInput
  match outcome with
  | .timeout => ⟨none, h1⟩
  | .connectionError => ⟨none, h1⟩
  | .requestException _ => ⟨none, h1⟩
  | .response status body =>
    if status = 200 then
      match body with
      | .invalid _ => ⟨none, h1⟩
      | .valid data =>
        match data.choices with
        | some (c :: _) =>
          ⟨some c.content, add_assistant_message maxHistory h1 c.content⟩
        | some [] => ⟨none, h1⟩
        | none => ⟨none, h1⟩
    else ⟨none, h1⟩

/-- The outcomes `chat` treats as failures: any caught transport exception, a
non-200 status, or a 200 whose body is unparsable or lacks a non-empty
`choices` array. -/
def isFailureOutcome : HttpOutcome → Bool
  | .timeout => true
  | .connectionError => true
  | .requestException _ => true
  | .response status body =>
    if status = 200 then
      match body with
      | .invalid _ => true
      | .valid data =>
        match data.choices with
        | some (_ :: _) => false
        | some [] => true
        | none => true
    else true

/-- What `DeepSeekClient.test_connection` produces: its boolean return, the
`conversation_history` after the call, and the `messages` array of the probe
request it sent. -/
structure ProbeResult where
  ok : Bool
  history : List ChatMessage
  sent : List (String × String)
deriving DecidableEq, Repr

/-- Embeds `DeepSeekClient.test_connection`: send a one-off request with the
fixed message list `[{'role': 'user', 'content': 'Hello'}]`, return `True`
exactly on status 200, `False` on any other status or caught exception; the
conversation history is never touched. -/
def test_connection (h : List ChatMessage) (outcome : HttpOutcome) : ProbeResult :=
  match outcome with
  | .response status _ => ⟨status == 200, h, [("user", "Hello")]⟩
  | _ => ⟨false, h, [("user", "Hello")]⟩

/-- An append call on the store: `add_user_message` or `add_assistant_message`. -/
inductive AppendOp where
  | user (content : String)
  | assistant (content : String)
deriving DecidableEq, Repr

/-- Run one append call against the store. -/
def applyAppend (maxHistory : Nat) (h : List ChatMessage) (op : AppendOp) :
    List ChatMessage :=
  match op with
  | .user c => add_user_message maxHistory h c
  | .assistant c => add_assistant_message maxHistory h c

/-- Retention algorithm written from the spec's own words, to be compared with
`trim_history`: partition `history` into the system subset and the rest; if
the rest's length exceeds the limit, keep only its last `limit` elements;
recombine as system subset followed by kept rest. -/
def retentionSpec (limit : Nat) (h : List ChatMessage) : List ChatMessage :=
  let systemSubset := h.filter (fun m => isSystem m)
  let rest := h.filter (fun m => !(isSystem m))
  let kept := if rest.length > limit then rest.drop (rest.length - limit) else rest
  systemSubset ++ kept

/-! Helper lemmas about the filters and the slice used by `trim_history`. -/

theorem filter_sys_of_rest (h : List ChatMessage) :
    (h.filter (fun m => !(isSystem m))).filter (fun m => isSystem m) = [] := by
  induction h with
  | nil => rfl
  | cons a t ih => by_cases ha : isSystem a <;> simp [List.filter_cons, ha, ih]

theorem filter_rest_of_sys (h : List ChatMessage) :
    (h.filter (fun m => isSystem m)).filter (fun m => !(isSystem m)) = [] := by
  induction h with
  | nil => rfl
  | cons a t ih => by_cases ha : isSystem a <;> simp [List.filter_cons, ha, ih]

theorem filter_rest_of_rest (h : List ChatMessage) :
    (h.filter (fun m => !(isSystem m))).filter (fun m => !(isSystem m)) =
      h.filter (fun m => !(isSystem m)) := by
  apply List.filter_eq_self.mpr
  intro a ha
  exact (List.mem_filter.mp ha).2

theorem filter_sys_of_sys (h : List ChatMessage) :
    (h.filter (fun m => isSystem m)).filter (fun m => isSystem m) =
      h.filter (fun m => isSystem m) := by
  apply List.filter_eq_self.mpr
  intro a ha
  exact (List.mem_filter.mp ha).2

theorem sliceLast_filter_of_all {α : Type} (p : α → Bool) (k : Nat) (l : List α)
    (hl : ∀ x ∈ l, p x = true) : (sliceLast k l).filter p = sliceLast k l := by
  apply List.filter_eq_self.mpr
  intro a ha
  unfold sliceLast at ha
  split at ha
  · exact hl a ha
  · exact hl a (List.drop_subset _ _ ha)

theorem sliceLast_all_false {α : Type} (p : α → Bool) (k : Nat) (l : List α)
    (hl : ∀ x ∈ l, p x = false) : (sliceLast k l).filter p = [] := by
  apply List.filter_eq_nil_iff.mpr
  intro a ha
  intro hpa
  unfold sliceLast at ha
  split at ha
  · exact absurd hpa (by simp [hl a ha])
  · exact absurd hpa (by simp [hl a (List.drop_subset _ _ ha)])

/-- The non-system part of a trimmed history is the (possibly sliced) rest. -/
theorem rest_of_trim (m : Nat) (h : List ChatMessage) :
    (trim_history m h).filter (fun x => !(isSystem x)) =
      (if (h.filter (fun x => !(isSystem x))).length > m
       then sliceLast m (h.filter (fun x => !(isSystem x)))
       else h.filter (fun x => !(isSystem x))) := by
  unfold trim_history
  simp only [List.filter_append, filter_rest_of_sys, List.nil_append]
  split
  · exact sliceLast_filter_of_all _ _ _ (fun x hx => (List.mem_filter.mp hx).2)
  · exact filter_rest_of_rest h

/-- Unfolded form of `trim_history`. -/
theorem trim_history_eq (m : Nat) (h : List ChatMessage) :
    trim_history m h = h.filter (fun x => isSystem x) ++
      (if (h.filter (fun x => !(isSystem x))).length > m
       then sliceLast m (h.filter (fun x => !(isSystem x)))
       else h.filter (fun x => !(isSystem x))) := rfl

/-- Trimming never touches the system part. -/
theorem sys_of_trim (m : Nat) (h : List ChatMessage) :
    (trim_history m h).filter (fun x => isSystem x) =
      h.filter (fun x => isSystem x) := by
  have hrest : ∀ x ∈ h.filter (fun m => !(isSystem m)), isSystem x = false := by
    intro x hx
    have := (List.mem_filter.mp hx).2
    simpa using this
  have hkept : (if (h.filter (fun x => !(isSystem x))).length > m
       then sliceLast m (h.filter (fun x => !(isSystem x)))
       else h.filter (fun x => !(isSystem x))).filter (fun x => isSystem x) = [] := by
    split
    · exact sliceLast_all_false _ _ _ hrest
    · exact filter_sys_of_rest h
  rw [trim_history_eq, List.filter_append, filter_sys_of_sys, hkept, List.append_nil]

theorem length_sliceLast_le {α : Type} (k : Nat) (l : List α) (hk : k ≠ 0) :
    (sliceLast k l).length ≤ k := by
  unfold sliceLast
  simp only [hk, if_false, List.length_drop]
  omega

/-- After a trim with a positive limit, the non-system count is within the limit. -/
theorem countNonSystem_trim_le (m : Nat) (h : List ChatMessage) (hm : 0 < m) :
    countNonSystem (trim_history m h) ≤ m := by
  unfold countNonSystem
  rw [rest_of_trim]
  split
  · exact length_sliceLast_le m _ (by omega)
  · omega

/-- The message just appended always survives the trim, as the last non-system
entry of the result. -/
theorem rest_of_trim_append (m : Nat) (h : List ChatMessage) (msg : ChatMessage)
    (hmsg : isSystem msg = false) :
    ((trim_history m (h ++ [msg])).filter (fun x => !(isSystem x))).getLast? =
      some msg := by
  rw [rest_of_trim]
  have hrest : (h ++ [msg]).filter (fun x => !(isSystem x)) =
      h.filter (fun x => !(isSystem x)) ++ [msg] := by
    simp [List.filter_append, hmsg]
  rw [hrest]
  split
  · unfold sliceLast
    split
    · exact List.getLast?_concat _
    · rw [List.drop_append_of_le_length (by simp; omega)]
      exact List.getLast?_concat _
  · exact List.getLast?_concat _

theorem applyAppend_bound (m : Nat) (h : List ChatMessage) (op : AppendOp)
    (hm : 0 < m) : countNonSystem (applyAppend m h op) ≤ m := by
  cases op with
  | user c => exact countNonSystem_trim_le m _ hm
  | assistant c => exact countNonSystem_trim_le m _ hm

theorem foldl_applyAppend_bound (m : Nat) (hm : 0 < m) (ops : List AppendOp) :
    ∀ h : List ChatMessage, countNonSystem h ≤ m →
      countNonSystem (List.foldl (applyAppend m) h ops) ≤ m := by
  induction ops with
  | nil => intro h hh; simpa using hh
  | cons op rest ih =>
    intro h hh
    rw [List.foldl_cons]
    exact ih _ (applyAppend_bound m h op hm)

/-- C1: with a positive retention limit, after every `add_user_message` /
`add_assistant_message` call in any sequence of such calls, the number of
non-system messages in the history is at most the limit. -/
theorem nonSystem_count_bounded_after_appends (m : Nat) (h0 : List ChatMessage)
    (ops : List AppendOp) (hm : 0 < m) (hops : ops ≠ []) :
    countNonSystem (List.foldl (applyAppend m) h0 ops) ≤ m := by
  cases ops with
  | nil => exact absurd rfl hops
  | cons op rest =>
    rw [List.foldl_cons]
    exact foldl_applyAppend_bound m hm rest _ (applyAppend_bound m h0 op hm)

/-- Witness for C1: two appends at limit 1 leave at most one non-system message. -/
theorem nonSystem_count_bounded_after_appends_witness :
    0 < 1 ∧ ([AppendOp.user "a", AppendOp.assistant "b"] : List AppendOp) ≠ [] ∧
    countNonSystem
      (List.foldl (applyAppend 1) [] [AppendOp.user "a", AppendOp.assistant "b"]) ≤ 1 :=
  ⟨by decide, by decide,
    nonSystem_count_bounded_after_appends 1 [] [AppendOp.user "a", AppendOp.assistant "b"]
      (by decide) (by decide)⟩

/-- Unfolded form of `retentionSpec`. -/
theorem retentionSpec_eq (limit : Nat) (h : List ChatMessage) :
    retentionSpec limit h = h.filter (fun x => isSystem x) ++
      (if (h.filter (fun x => !(isSystem x))).length > limit
       then (h.filter (fun x => !(isSystem x))).drop
              ((h.filter (fun x => !(isSystem x))).length - limit)
       else h.filter (fun x => !(isSystem x))) := rfl

/-- C2: with a positive limit, the trim step is exactly the spec's retention
algorithm, its non-system part is a suffix of the untrimmed non-system part
(front-eviction only, no reordering), and the worked example at limit 2 with
appends a, b, c, d, e ends with non-system history [assistant d, user e]. -/
theorem trim_matches_retention_spec (m : Nat) (h : List ChatMessage) (hm : 0 < m) :
    trim_history m h = retentionSpec m h ∧
    ((trim_history m h).filter (fun x => !(isSystem x))) <:+
      (h.filter (fun x => !(isSystem x))) ∧
    (List.foldl (applyAppend 2) []
      [AppendOp.user "a", AppendOp.assistant "b", AppendOp.user "c",
       AppendOp.assistant "d", AppendOp.user "e"]).filter (fun x => !(isSystem x)) =
      [⟨"assistant", "d"⟩, ⟨"user", "e"⟩] := by
  refine ⟨?_, ?_, by decide⟩
  · rw [trim_history_eq, retentionSpec_eq]
    have hslice : sliceLast m (h.filter (fun x => !(isSystem x))) =
        (h.filter (fun x => !(isSystem x))).drop
          ((h.filter (fun x => !(isSystem x))).length - m) := by
      unfold sliceLast
      rw [if_neg (by omega)]
    rw [hslice]
  · rw [rest_of_trim]
    split
    · have hslice : sliceLast m (h.filter (fun x => !(isSystem x))) =
          (h.filter (fun x => !(isSystem x))).drop
            ((h.filter (fun x => !(isSystem x))).length - m) := by
        unfold sliceLast
        rw [if_neg (by omega)]
      rw [hslice]
      exact List.drop_suffix _ _
    · exact List.suffix_refl _

/-- Witness for C2 at limit 2 on a store with a system message and one turn. -/
theorem trim_matches_retention_spec_witness :
    0 < 2 ∧
    (trim_history 2 [⟨"system", "s"⟩, ⟨"user", "x"⟩] =
        retentionSpec 2 [⟨"system", "s"⟩, ⟨"user", "x"⟩] ∧
      ((trim_history 2 [⟨"system", "s"⟩, ⟨"user", "x"⟩]).filter
          (fun x => !(isSystem x))) <:+
        (([⟨"system", "s"⟩, ⟨"user", "x"⟩] : List ChatMessage).filter
          (fun x => !(isSystem x))) ∧
      (List.foldl (applyAppend 2) []
        [AppendOp.user "a", AppendOp.assistant "b", AppendOp.user "c",
         AppendOp.assistant "d", AppendOp.user "e"]).filter (fun x => !(isSystem x)) =
        [⟨"assistant", "d"⟩, ⟨"user", "e"⟩]) :=
  ⟨by decide, trim_matches_retention_spec 2 [⟨"system", "s"⟩, ⟨"user", "x"⟩] (by decide)⟩

/-- C10: with retention limit 0 and a non-empty non-system part, the Python
slice `[-0:]` keeps the whole list, so trimming drops nothing and each append
grows the non-system count by one — it grows without bound. -/
theorem trim_zero_keeps_everything (h : List ChatMessage) (s : String)
    (hne : h.filter (fun x => !(isSystem x)) ≠ []) :
    trim_history 0 h =
      h.filter (fun x => isSystem x) ++ h.filter (fun x => !(isSystem x)) ∧
    countNonSystem (add_user_message 0 h s) = countNonSystem h + 1 := by
  constructor
  · rw [trim_history_eq]
    split
    · rfl
    · rfl
  · show ((trim_history 0 (h ++ [⟨"user", s⟩])).filter
        (fun x => !(isSystem x))).length = countNonSystem h + 1
    rw [rest_of_trim]
    have hrest : (h ++ [(⟨"user", s⟩ : ChatMessage)]).filter (fun x => !(isSystem x)) =
        h.filter (fun x => !(isSystem x)) ++ [⟨"user", s⟩] := by
      simp [List.filter_append, isSystem]
    rw [hrest]
    have hlen : (h.filter (fun x => !(isSystem x)) ++
        [(⟨"user", s⟩ : ChatMessage)]).length = countNonSystem h + 1 := by
      simp [countNonSystem]
    split
    · show (sliceLast 0 _).length = _
      rw [sliceLast, if_pos rfl]
      exact hlen
    · exact hlen

/-- Witness for C10 on a one-turn store. -/
theorem trim_zero_keeps_everything_witness :
    ([⟨"user", "x"⟩] : List ChatMessage).filter (fun x => !(isSystem x)) ≠ [] ∧
    (trim_history 0 [⟨"user", "x"⟩] =
        ([⟨"user", "x"⟩] : List ChatMessage).filter (fun x => isSystem x) ++
          ([⟨"user", "x"⟩] : List ChatMessage).filter (fun x => !(isSystem x)) ∧
      countNonSystem (add_user_message 0 [⟨"user", "x"⟩] "y") =
        countNonSystem [⟨"user", "x"⟩] + 1) :=
  ⟨by decide, trim_zero_keeps_everything [⟨"user", "x"⟩] "y" (by decide)⟩

/-- Unfolded form of `set_system_prompt`. -/
theorem set_system_prompt_eq (h : List ChatMessage) (p : String) :
    set_system_prompt h p =
      (if pyStrip p ≠ "" then
        (⟨"system", pyStrip p⟩ : ChatMessage) :: h.filter (fun m => !(isSystem m))
       else h.filter (fun m => !(isSystem m))) := rfl

theorem isSystem_sysMessage (s : String) : isSystem ⟨"system", s⟩ = true := by
  simp [isSystem]

/-- Requests built from a history holding no system message carry no
system-role entry. -/
theorem toRequestMessages_no_system (h : List ChatMessage) :
    (toRequestMessages (h.filter (fun m => !(isSystem m)))).filter
      (fun rm => rm.1 == "system") = [] := by
  induction h with
  | nil => rfl
  | cons a t ih =>
    by_cases ha : isSystem a = true
    · rw [List.filter_cons_of_neg (by simp [ha])]
      exact ih
    · rw [List.filter_cons_of_pos (by simp [ha])]
      have hrole : (a.role == "system") = false := by
        simpa [isSystem] using ha
      rw [toRequestMessages, List.map_cons, List.filter_cons_of_neg (by simpa using hrole)]
      exact ih

/-- C6: setting two different non-empty prompts in a row leaves exactly one
system message, carrying the latest trimmed text, at index 0; setting the
empty prompt leaves no system-role entry in the request messages. -/
theorem set_system_prompt_replaces (h : List ChatMessage) (p1 p2 : String)
    (hp1 : pyStrip p1 ≠ "") (hp2 : pyStrip p2 ≠ "") (hne : p1 ≠ p2) :
    (set_system_prompt (set_system_prompt h p1) p2).filter (fun m => isSystem m) =
      [⟨"system", pyStrip p2⟩] ∧
    (set_system_prompt (set_system_prompt h p1) p2).head? =
      some ⟨"system", pyStrip p2⟩ ∧
    (toRequestMessages (set_system_prompt h "")).filter
      (fun rm => rm.1 == "system") = [] := by
  have e1 : set_system_prompt h p1 =
      (⟨"system", pyStrip p1⟩ : ChatMessage) :: h.filter (fun m => !(isSystem m)) := by
    rw [set_system_prompt_eq, if_pos hp1]
  have e2 : set_system_prompt (set_system_prompt h p1) p2 =
      (⟨"system", pyStrip p2⟩ : ChatMessage) :: h.filter (fun m => !(isSystem m)) := by
    rw [e1, set_system_prompt_eq, if_pos hp2]
    congr 1
    rw [List.filter_cons_of_neg (by simp [isSystem_sysMessage])]
    exact filter_rest_of_rest h
  refine ⟨?_, ?_, ?_⟩
  · rw [e2, List.filter_cons_of_pos (by simp [isSystem_sysMessage])]
    rw [filter_sys_of_rest]
  · rw [e2]
    rfl
  · have e0 : set_system_prompt h "" = h.filter (fun m => !(isSystem m)) := by
      rw [set_system_prompt_eq, if_neg (by decide)]
    rw [e0]
    exact toRequestMessages_no_system h

/-- Witness for C6 with prompts "a" then "b" on the empty store. -/
theorem set_system_prompt_replaces_witness :
    pyStrip "a" ≠ "" ∧ pyStrip "b" ≠ "" ∧ ("a" : String) ≠ "b" ∧
    ((set_system_prompt (set_system_prompt [] "a") "b").filter
        (fun m => isSystem m) = [⟨"system", pyStrip "b"⟩] ∧
      (set_system_prompt (set_system_prompt [] "a") "b").head? =
        some ⟨"system", pyStrip "b"⟩ ∧
      (toRequestMessages (set_system_prompt [] "")).filter
        (fun rm => rm.1 == "system") = []) :=
  ⟨by decide, by decide, by decide,
    set_system_prompt_replaces [] "a" "b" (by decide) (by decide) (by decide)⟩

/-- C7 as stated fails: `add_user_message` stores the content exactly as
given, not stripped of surrounding whitespace — appending "  hi  " stores
"  hi  ", which differs from its trim "hi". -/
theorem add_user_message_keeps_raw_content :
    add_user_message 10 [] "  hi  " = [⟨"user", "  hi  "⟩] ∧
    pyStrip "  hi  " = "hi" ∧ ("  hi  " : String) ≠ "hi" := by
  refine ⟨by decide, by decide, by decide⟩

/-- C7 amended: each append call puts a message with the corresponding role
and the content exactly as given (untrimmed) at the end of the non-system
history, with the retention trim applied. -/
theorem append_puts_given_content_last (m : Nat) (h : List ChatMessage) (s : String) :
    ((add_user_message m h s).filter (fun x => !(isSystem x))).getLast? =
      some ⟨"user", s⟩ ∧
    ((add_assistant_message m h s).filter (fun x => !(isSystem x))).getLast? =
      some ⟨"assistant", s⟩ :=
  ⟨rest_of_trim_append m h ⟨"user", s⟩ rfl,
   rest_of_trim_append m h ⟨"assistant", s⟩ rfl⟩

/-- C8: `clear_history` removes every non-system message and keeps the system
messages exactly as they were. -/
theorem clear_history_keeps_only_system (h : List ChatMessage) :
    (clear_history h).filter (fun m => !(isSystem m)) = [] ∧
    (clear_history h).filter (fun m => isSystem m) =
      h.filter (fun m => isSystem m) :=
  ⟨filter_rest_of_sys h, filter_sys_of_sys h⟩

/-- On every failure outcome, `chat` returns `None` and its only store effect
is the initial user append. -/
theorem chat_failure_state (m : Nat) (h : List ChatMessage) (u : String)
    (o : HttpOutcome) (hf : isFailureOutcome o = true) :
    chat m h u o = ⟨none, add_user_message m h u⟩ := by
  cases o with
  | timeout => rfl
  | connectionError => rfl
  | requestException d => rfl
  | response status body =>
    by_cases hs : status = 200
    · subst hs
      cases body with
      | invalid raw => simp [chat]
      | valid data =>
        cases hcd : data.choices with
        | none => simp [chat, hcd]
        | some l =>
          cases l with
          | nil => simp [chat, hcd]
          | cons c cs =>
            exfalso
            simp [isFailureOutcome, hcd] at hf
    · simp [chat, hs]

/-- C3: every failing `chat` call keeps the user turn appended at the start of
the call in the store, appends no assistant message, and leaves the store
otherwise exactly as the user append left it. -/
theorem chat_failure_keeps_user_turn (m : Nat) (h : List ChatMessage) (u : String)
    (o : HttpOutcome) (hf : isFailureOutcome o = true) :
    chat m h u o = ⟨none, add_user_message m h u⟩ ∧
    (⟨"user", u⟩ : ChatMessage) ∈ (chat m h u o).history := by
  have heq := chat_failure_state m h u o hf
  refine ⟨heq, ?_⟩
  rw [heq]
  have hl := rest_of_trim_append m h ⟨"user", u⟩ rfl
  exact List.mem_of_mem_filter (List.mem_of_getLast?_eq_some hl)

/-- Witness for C3 at a timeout on the empty store. -/
theorem chat_failure_keeps_user_turn_witness :
    isFailureOutcome HttpOutcome.timeout = true ∧
    (chat 10 [] "hi" HttpOutcome.timeout = ⟨none, add_user_message 10 [] "hi"⟩ ∧
      (⟨"user", "hi"⟩ : ChatMessage) ∈ (chat 10 [] "hi" HttpOutcome.timeout).history) :=
  ⟨by decide, chat_failure_keeps_user_turn 10 [] "hi" HttpOutcome.timeout (by decide)⟩

/-- C4 as stated fails: an HTTP 401 with body
`{"error": {"message": "invalid key", "type": "auth"}}` makes `chat` return
the bare `None`, the very same result as a timeout — the status code is not
preserved and the failure kinds cannot be distinguished from the return. -/
theorem chat_does_not_classify_failures :
    (chat 10 [] "hi"
      (HttpOutcome.response 401
        (Body.valid ⟨none, [], some "invalid key", some "auth"⟩))).reply = none ∧
    chat 10 [] "hi"
      (HttpOutcome.response 401
        (Body.valid ⟨none, [], some "invalid key", some "auth"⟩)) =
      chat 10 [] "hi" HttpOutcome.timeout :=
  ⟨rfl, rfl⟩

/-- C4 amended: `chat` never raises across its public boundary for any
expected failure mode — every failure is reported in-band, but always as the
single unclassified value `None`; the timeout / connection / transport /
malformed-response / API-error distinction and the HTTP status code are only
printed, never returned. -/
theorem chat_failure_reply_is_none (m : Nat) (h : List ChatMessage) (u : String)
    (o : HttpOutcome) (hf : isFailureOutcome o = true) :
    (chat m h u o).reply = none := by
  rw [chat_failure_state m h u o hf]

/-- Witness for the amended C4 at a connection failure. -/
theorem chat_failure_reply_is_none_witness :
    isFailureOutcome HttpOutcome.connectionError = true ∧
    (chat 3 [] "hey" HttpOutcome.connectionError).reply = none :=
  ⟨by decide, chat_failure_reply_is_none 3 [] "hey" HttpOutcome.connectionError (by decide)⟩

/-- C5: a 200 response whose parsed body has a non-empty `choices` array makes
`chat` append exactly one assistant message carrying `choices[0].message.content`
verbatim — it ends the non-system history — and return that same content. -/
theorem chat_success_appends_first_choice (m : Nat) (h : List ChatMessage)
    (u : String) (d : ResponseData) (c : ChoiceMessage) (cs : List ChoiceMessage)
    (hc : d.choices = some (c :: cs)) :
    (chat m h u (HttpOutcome.response 200 (Body.valid d))).reply = some c.content ∧
    (chat m h u (HttpOutcome.response 200 (Body.valid d))).history =
      add_assistant_message m (add_user_message m h u) c.content ∧
    ((chat m h u (HttpOutcome.response 200 (Body.valid d))).history.filter
      (fun x => !(isSystem x))).getLast? = some ⟨"assistant", c.content⟩ := by
  have he : chat m h u (HttpOutcome.response 200 (Body.valid d)) =
      ⟨some c.content, add_assistant_message m (add_user_message m h u) c.content⟩ := by
    simp [chat, hc]
  refine ⟨by rw [he], by rw [he], ?_⟩
  rw [he]
  exact rest_of_trim_append m _ ⟨"assistant", c.content⟩ rfl

/-- Witness for C5 with the single choice "ok" on the empty store. -/
theorem chat_success_appends_first_choice_witness :
    (⟨some [⟨"ok"⟩], [], none, none⟩ : ResponseData).choices =
      some (⟨"ok"⟩ :: ([] : List ChoiceMessage)) ∧
    ((chat 10 [] "hi"
        (HttpOutcome.response 200
          (Body.valid ⟨some [⟨"ok"⟩], [], none, none⟩))).reply = some "ok" ∧
      (chat 10 [] "hi"
        (HttpOutcome.response 200
          (Body.valid ⟨some [⟨"ok"⟩], [], none, none⟩))).history =
        add_assistant_message 10 (add_user_message 10 [] "hi") "ok" ∧
      ((chat 10 [] "hi"
        (HttpOutcome.response 200
          (Body.valid ⟨some [⟨"ok"⟩], [], none, none⟩))).history.filter
        (fun x => !(isSystem x))).getLast? = some ⟨"assistant", "ok"⟩) :=
  ⟨rfl, chat_success_appends_first_choice 10 [] "hi"
    ⟨some [⟨"ok"⟩], [], none, none⟩ ⟨"ok"⟩ [] rfl⟩

/-- C9: `test_connection` sends the fixed probe message outside the stored
history, leaves the conversation history unchanged in every outcome, and
returns `true` exactly when the outcome is an HTTP 200 response. -/
theorem test_connection_fixed_probe_and_frame (h : List ChatMessage)
    (o : HttpOutcome) :
    (test_connection h o).history = h ∧
    (test_connection h o).sent = [("user", "Hello")] ∧
    ((test_connection h o).ok = true ↔ ∃ b, o = HttpOutcome.response 200 b) := by
  cases o with
  | timeout => exact ⟨rfl, rfl, by simp [test_connection]⟩
  | connectionError => exact ⟨rfl, rfl, by simp [test_connection]⟩
  | requestException d => exact ⟨rfl, rfl, by simp [test_connection]⟩
  | response status body =>
    refine ⟨rfl, rfl, ?_⟩
    constructor
    · intro hok
      have hs : status = 200 := by simpa [test_connection] using hok
      exact ⟨body, by rw [hs]⟩
    · rintro ⟨b2, hb⟩
      injection hb with hs hb2
      simp [test_connection, hs]

end DeepSeek
